import Mathlib

/-!
Shallow embedding of `metasv/extract_pairs.py` (NHLBI-BCB/metasv).

Sequences and quality strings are embedded as `List Char` (Python 2 byte
strings); query names and file names as `String`.  The pysam alignment
record is embedded as the `Alignment` structure carrying exactly the
fields the script reads.  The pysam `Samfile` handle is embedded as the
`BamFile` structure: `contents` models `bam.fetch` (chromosome, start,
end to the list of overlapping alignments) and `mateOf` models
`bam.mate`, with `none` standing for the `ValueError` the script
catches.  Writes to the FASTQ output files are modelled as lists of
structured `FastqRecord` values, one per 4-line record the script
prints, and the two log messages the claims mention are modelled as
Boolean flags in the result.
-/

namespace ExtractPairs

/-- Embedding of the pysam alignment record: the fields of `aln` that
`extract_pairs.py` reads. -/
structure Alignment where
  qname : String
  is_read1 : Bool
  is_reverse : Bool
  seq : List Char
  qual : List Char
  cigarstring : Option String
  is_proper_pair : Bool
  tlen : Int
  is_secondary : Bool
  deriving DecidableEq

/-- Embedding of `compl_table`: the identity table over all 256 byte
characters with the four entries `A`, `C`, `G`, `T` overwritten
(lines 12-16 of the source). -/
def complChar (c : Char) : Char :=
  if c = 'A' then 'T'
  else if c = 'C' then 'G'
  else if c = 'G' then 'C'
  else if c = 'T' then 'A'
  else c

/-- Embedding of `compl(seq)`: map every character through the table
(line 19-20). -/
def compl (s : List Char) : List Char :=
  s.map complChar

/-- Embedding of Python `str.upper()` on a byte string: ASCII uppercase
each character. -/
def seqUpper (s : List Char) : List Char :=
  s.map Char.toUpper

/-- Embedding of `get_sequence_quality(aln)` (lines 23-27): forward
reads give the uppercased sequence and untouched quality, reverse reads
give `compl(seq.upper())[::-1]` and `qual[::-1]`. -/
def get_sequence_quality (aln : Alignment) : List Char × List Char :=
  if !aln.is_reverse then (seqUpper aln.seq, aln.qual)
  else ((compl (seqUpper aln.seq)).reverse, aln.qual.reverse)

/-- One 4-line FASTQ record as printed by `write_read`:
`@name/end_id`, sequence line, `+`, quality line. -/
structure FastqRecord where
  name : String
  end_id : Nat
  sequence : List Char
  quality : List Char
  deriving DecidableEq

/-- Embedding of `write_read(fd, aln)` (lines 30-34) as the record it
appends to the file `fd`. -/
def write_read (aln : Alignment) : FastqRecord :=
  let end_id := if aln.is_read1 then 1 else 2
  let sq := get_sequence_quality aln
  { name := aln.qname, end_id := end_id, sequence := sq.1, quality := sq.2 }

/-- Embedding of `is_all(aln, mate)` (lines 63-65). -/
def is_all (aln mate : Alignment) : Bool :=
  (aln.cigarstring = some "100M" && mate.cigarstring = some "100M") &&
    (aln.is_proper_pair && mate.is_proper_pair)

/-- Embedding of `all_pair(aln, mate)` (lines 68-69). -/
def all_pair (_aln _mate : Alignment) : Bool :=
  true

/-- Embedding of `non_perfect(aln, mate)` (lines 72-73). -/
def non_perfect (aln mate : Alignment) : Bool :=
  !(aln.cigarstring = some "100M" && mate.cigarstring = some "100M" &&
      aln.is_proper_pair && mate.is_proper_pair)

/-- Embedding of `discordant(aln, mate, isize_min=300, isize_max=400)`
(lines 76-78). -/
def discordant (aln _mate : Alignment) (isize_min : Int := 300)
    (isize_max : Int := 400) : Bool :=
  if aln.tlen = 0 then true
  else !(isize_min ≤ |aln.tlen| && |aln.tlen| ≤ isize_max)

/-- Embedding of `discordant_with_normal_orientation(aln, mate,
isize_min=300, isize_max=400)` (lines 81-84). -/
def discordant_with_normal_orientation (aln mate : Alignment)
    (isize_min : Int := 300) (isize_max : Int := 400) : Bool :=
  if aln.tlen = 0 then true
  else if (aln.is_reverse && mate.is_reverse) ||
      (!aln.is_reverse && !mate.is_reverse) then false
  else !(isize_min ≤ |aln.tlen| && |aln.tlen| ≤ isize_max)

/-- An extraction function together with its `__name__`, as used for
logging and output-file naming in `extract_read_pairs`. -/
structure ExtractFn where
  name : String
  fn : Alignment → Alignment → Bool

/-- Embedding of the pysam `Samfile` handle.  `contents chr s e` models
`bam.fetch(chr, start=s, end=e)` and `mateOf aln` models
`bam.mate(aln)`, with `none` standing for the `ValueError` raised when
the mate cannot be resolved. -/
structure BamFile where
  contents : String → Int → Int → List Alignment
  mateOf : Alignment → Option Alignment

/-- A pair dictionary entry: the 2-slot list `[None, None]` with slot 0
for read1 and slot 1 for read2. -/
abbrev Slots := Option Alignment × Option Alignment

/-- Embedding of `aln_dict[aln.qname][0 if aln.is_read1 else 1] = aln`
(line 114): store the alignment in its slot. -/
def updateSlot (p : Slots) (aln : Alignment) : Slots :=
  if aln.is_read1 then (some aln, p.2) else (p.1, some aln)

/-- One step of the dictionary-building loop (lines 111-114): create the
entry `[None, None]` on first sight of a query name, then fill the
read1/read2 slot.  The dictionary is embedded as an association list in
insertion order. -/
def insertAln (d : List (String × Slots)) (aln : Alignment) :
    List (String × Slots) :=
  if d.any (fun e => e.1 = aln.qname) then
    d.map (fun e => if e.1 = aln.qname then (e.1, updateSlot e.2 aln) else e)
  else
    d ++ [(aln.qname, updateSlot (none, none) aln)]

/-- Embedding of the dictionary-building loop over `aln_list`
(lines 110-114). -/
def buildAlnDict (alns : List Alignment) : List (String × Slots) :=
  alns.foldl insertAln []

/-- Embedding of the body of the mate-resolution loop (lines 120-131)
for one dictionary entry.  Returns the completed pair appended to
`aln_pairs` (or `none` when the pair is dropped) together with the
number of `bam.mate` lookups attempted.  The `(none, none)` case cannot
arise from `buildAlnDict` (every entry is created with one slot filled);
there Python would pass `None` to `bam.mate` and crash, which we model
as a dropped pair. -/
def resolveEntry (mateFn : Alignment → Option Alignment) (p : Slots) :
    Option Slots × Nat :=
  match p with
  | (some a1, some a2) => (some (some a1, some a2), 0)
  | (some a1, none) =>
    match mateFn a1 with
    | some m => (some (some a1, some m), 1)
    | none => (none, 1)
  | (none, some a2) =>
    match mateFn a2 with
    | some m => (some (some m, some a2), 1)
    | none => (none, 1)
  | (none, none) => (none, 1)

/-- Embedding of the whole mate-resolution loop (lines 119-131): the
`aln_pairs` list collected over the dictionary entries. -/
def resolvePairs (mateFn : Alignment → Option Alignment)
    (d : List (String × Slots)) : List Slots :=
  d.filterMap (fun e => (resolveEntry mateFn e.2).1)

/-- Embedding of the filter-and-emit loop (lines 139-145) restricted to
one extraction function: the records written to its end-1 file, the
records written to its end-2 file, and its `selected_pair_counts`
entry.  In the source the pairs reaching this loop always have both
slots filled (proved below); on an incomplete pair Python would crash
inside the extraction function, which we model as writing nothing. -/
def emitStep (fn : Alignment → Alignment → Bool)
    (acc : List FastqRecord × List FastqRecord × Nat) (p : Slots) :
    List FastqRecord × List FastqRecord × Nat :=
  match p with
  | (some first, some second) =>
    if fn first second then
      (acc.1 ++ [write_read first], acc.2.1 ++ [write_read second],
        acc.2.2 + 1)
    else acc
  | _ => acc

/-- The filter-and-emit loop over all resolved pairs, for one
extraction function. -/
def emitChannel (fn : Alignment → Alignment → Bool) (pairs : List Slots) :
    List FastqRecord × List FastqRecord × Nat :=
  pairs.foldl (emitStep fn) ([], [], 0)

/-- Result of one `extract_read_pairs` call.  `errorLogged` is the
"interval too close to chromosome beginning" error (line 105),
`skipLogged` the "Too many reads encountered" message (line 133),
`fetched` records whether `bam.fetch` was called, `alnPairs` is the
resolved `aln_pairs` list, `outputs` the per-function pair of output
file names with the records written to each, and `counts` the
`selected_pair_counts` list. -/
structure ExtractResult where
  errorLogged : Bool
  fetched : Bool
  skipLogged : Bool
  alnPairs : List Slots
  outputs : List ((String × String) × (List FastqRecord × List FastqRecord))
  counts : List Nat

/-- The `aln_list` computed on lines 103-108: empty with an error logged
when the padded start is negative, otherwise the non-secondary
alignments fetched from the padded interval. -/
def fetchedAlns (bam : BamFile) (chr_name : String)
    (region_start region_end pad : Int) : List Alignment :=
  if region_start - pad < 0 then []
  else (bam.contents chr_name (region_start - pad) (region_end + pad)).filter
    (fun aln => !aln.is_secondary)

/-- Embedding of `extract_read_pairs(bamname, region, prefix,
extract_fns, pad, max_read_pairs)` (lines 87-154).  The region string
`chr:start-end` arrives pre-parsed as `chr_name`, `region_start`,
`region_end` (the source splits it on `:` and `-` on lines 94-96); the
Python default for `max_read_pairs` is `EXTRACTION_MAX_READ_PAIRS` from
the `defaults` module, which is not part of this repository snapshot,
so the ceiling is an explicit argument here. -/
def extract_read_pairs (bam : BamFile) (chr_name : String)
    (region_start region_end : Int) (pre : String)
    (extract_fns : List ExtractFn) (pad : Int) (max_read_pairs : Nat) :
    ExtractResult :=
  let chr_start := region_start - pad
  let aln_list := fetchedAlns bam chr_name region_start region_end pad
  let aln_dict := buildAlnDict aln_list
  let skip := !(aln_dict.length ≤ max_read_pairs)
  let aln_pairs := if skip then [] else resolvePairs bam.mateOf aln_dict
  { errorLogged := chr_start < 0
    fetched := !(chr_start < 0 : Bool)
    skipLogged := skip
    alnPairs := aln_pairs
    outputs := extract_fns.map (fun ef =>
      ((pre ++ "_" ++ ef.name ++ "_1.fq", pre ++ "_" ++ ef.name ++ "_2.fq"),
        ((emitChannel ef.fn aln_pairs).1, (emitChannel ef.fn aln_pairs).2.1)))
    counts := extract_fns.map (fun ef => (emitChannel ef.fn aln_pairs).2.2) }

/-- The reverse complement of a sequence, written in its canonical
form: complement every character of the reversed sequence.  The code
computes `compl(seq)[::-1]` instead; the two agree because the
complement acts characterwise. -/
def reverseComplement (s : List Char) : List Char :=
  s.reverse.map complChar

/-- A concrete forward-strand read1 alignment used to instantiate the
theorems below. -/
def alnA : Alignment :=
  { qname := "a", is_read1 := true, is_reverse := false, seq := ['A', 'C'],
    qual := ['I', 'J'], cigarstring := some "2M", is_proper_pair := true,
    tlen := 350, is_secondary := false }

/-- The mate of `alnA`: a read2 alignment with the same query name. -/
def alnA2 : Alignment :=
  { alnA with is_read1 := false, is_reverse := true, tlen := -350 }

/-- A read1 alignment with a second query name. -/
def alnB : Alignment :=
  { alnA with qname := "b" }

/-- A concrete alignment file: fetching returns one read for each of
two query names, and the mate lookup succeeds for query name `a`
only. -/
def bamAB : BamFile :=
  { contents := fun _ _ _ => [alnA, alnB]
    mateOf := fun aln => if aln.qname = "a" then some alnA2 else none }

/-- The all-pair extraction channel. -/
def efAll : ExtractFn :=
  { name := "all_pair", fn := all_pair }

/-- C1: for every alignment written by `write_read`, if the
reverse-strand flag is set the written sequence is the reverse
complement of the raw uppercased sequence and the written quality is
the exact reverse of the raw quality string; otherwise the sequence is
written uppercased and the quality unchanged. -/
theorem write_read_strand_orientation (aln : Alignment) :
    ((write_read aln).sequence =
      if aln.is_reverse then reverseComplement (seqUpper aln.seq)
      else seqUpper aln.seq) ∧
    ((write_read aln).quality =
      if aln.is_reverse then aln.qual.reverse else aln.qual) := by
  cases h : aln.is_reverse <;>
    simp [write_read, get_sequence_quality, reverseComplement, compl, h,
      List.map_reverse]

/-- C3: `non_perfect` is the boolean negation of `is_all` on identical
inputs. -/
theorem non_perfect_negates_is_all (aln mate : Alignment) :
    non_perfect aln mate = !(is_all aln mate) := by
  simp [non_perfect, is_all, Bool.and_assoc]

/-- C4: with its default bounds 300 and 400, `discordant` returns true
exactly when the template length is 0, or its absolute value is below
300 or above 400, and returns false in every other case. -/
theorem discordant_default_bounds (aln mate : Alignment) :
    discordant aln mate = true ↔
      aln.tlen = 0 ∨ |aln.tlen| < 300 ∨ 400 < |aln.tlen| := by
  by_cases h : aln.tlen = 0
  · simp [discordant, h]
  · simp [discordant, h, not_and_or, not_le]

/-- C5: `discordant_with_normal_orientation` returns true when the
template length is 0; for nonzero template length it returns false
when both reads have the same strand orientation, and otherwise agrees
with `discordant` on the same inputs and bounds. -/
theorem discordant_with_normal_orientation_cases (aln mate : Alignment)
    (isize_min isize_max : Int) :
    discordant_with_normal_orientation aln mate isize_min isize_max =
      if aln.tlen = 0 then true
      else if aln.is_reverse = mate.is_reverse then false
      else discordant aln mate isize_min isize_max := by
  by_cases h : aln.tlen = 0
  · simp [discordant_with_normal_orientation, h]
  · cases h1 : aln.is_reverse <;> cases h2 : mate.is_reverse <;>
      simp [discordant_with_normal_orientation, discordant, h, h1, h2]

/-- C7: a dictionary entry with both slots filled is passed through
with no mate lookup; an entry with exactly one slot filled triggers
exactly one lookup, whose failure drops the pair and whose success
fills the missing slot. -/
theorem resolve_entry_mate_lookup (mateFn : Alignment → Option Alignment)
    (a b : Alignment) :
    resolveEntry mateFn (some a, some b) = (some (some a, some b), 0) ∧
    resolveEntry mateFn (some a, none) =
      ((mateFn a).map (fun m => ((some a, some m) : Slots)), 1) ∧
    resolveEntry mateFn (none, some b) =
      ((mateFn b).map (fun m => ((some m, some b) : Slots)), 1) := by
  refine ⟨rfl, ?_, ?_⟩
  · cases h : mateFn a <;> simp [resolveEntry, h]
  · cases h : mateFn b <;> simp [resolveEntry, h]

/-- C10: `compl` maps A to T, C to G, G to C, T to A and every other
character to itself, so reverse-complementing keeps ambiguous bases
unchanged in value, reversed in position. -/
theorem compl_preserves_ambiguous_bases :
    complChar 'A' = 'T' ∧ complChar 'C' = 'G' ∧ complChar 'G' = 'C' ∧
    complChar 'T' = 'A' ∧
    (∀ c : Char, c ≠ 'A' → c ≠ 'C' → c ≠ 'G' → c ≠ 'T' → complChar c = c) ∧
    (∀ (s t : List Char) (c : Char),
      c ≠ 'A' → c ≠ 'C' → c ≠ 'G' → c ≠ 'T' →
      (compl (s ++ c :: t)).reverse =
        (compl t).reverse ++ c :: (compl s).reverse) := by
  refine ⟨rfl, rfl, rfl, rfl, ?_, ?_⟩
  · intro c h1 h2 h3 h4
    simp [complChar, h1, h2, h3, h4]
  · intro s t c h1 h2 h3 h4
    simp [compl, complChar, h1, h2, h3, h4]

/-- Witness for C10 at the ambiguous base N inside the sequence ANC. -/
theorem compl_preserves_ambiguous_bases_witness :
    complChar 'N' = 'N' ∧
    (compl (['A'] ++ 'N' :: ['C'])).reverse =
      (compl ['C']).reverse ++ 'N' :: (compl ['A']).reverse :=
  ⟨compl_preserves_ambiguous_bases.2.2.2.2.1 'N' (by decide) (by decide)
      (by decide) (by decide),
    compl_preserves_ambiguous_bases.2.2.2.2.2 ['A'] ['C'] 'N' (by decide)
      (by decide) (by decide) (by decide)⟩

/-- A mate-resolution result that makes it into `aln_pairs` always has
both slots filled. -/
lemma resolveEntry_some_complete (mateFn : Alignment → Option Alignment)
    (s p : Slots) (h : (resolveEntry mateFn s).1 = some p) :
    p.1.isSome ∧ p.2.isSome := by
  obtain ⟨o1, o2⟩ := s
  cases o1 <;> cases o2 <;> simp [resolveEntry] at h
  case none.some b =>
    cases hm : mateFn b <;> simp [hm] at h <;> simp [← h]
  case some.none a =>
    cases hm : mateFn a <;> simp [hm] at h <;> simp [← h]
  case some.some a b =>
    simp [← h]

/-- Every pair produced by the mate-resolution loop has both slots
filled. -/
lemma resolvePairs_complete (mateFn : Alignment → Option Alignment)
    (d : List (String × Slots)) (p : Slots) (h : p ∈ resolvePairs mateFn d) :
    p.1.isSome ∧ p.2.isSome := by
  rw [resolvePairs, List.mem_filterMap] at h
  obtain ⟨e, _, he⟩ := h
  exact resolveEntry_some_complete mateFn e.2 p he

/-- Counting step of the emit loop: over complete pairs with an
always-true extraction function, each pair adds one to the count. -/
lemma emit_foldl_count (fn : Alignment → Alignment → Bool)
    (pairs : List Slots)
    (hc : ∀ p ∈ pairs, p.1.isSome ∧ p.2.isSome)
    (ht : ∀ a b, fn a b = true) :
    ∀ acc, ((pairs.foldl (emitStep fn) acc).2.2 = acc.2.2 + pairs.length) := by
  induction pairs with
  | nil => intro acc; simp
  | cons p rest ih =>
    intro acc
    obtain ⟨h1, h2⟩ := hc p (List.mem_cons_self p rest)
    obtain ⟨a, ha⟩ := Option.isSome_iff_exists.mp h1
    obtain ⟨b, hb⟩ := Option.isSome_iff_exists.mp h2
    obtain ⟨o1, o2⟩ := p
    subst ha hb
    rw [List.foldl_cons, ih (fun q hq => hc q (List.mem_cons_of_mem _ hq))]
    simp [emitStep, ht]
    omega

/-- C2: a region whose padded start is negative yields a logged error,
no fetch from the alignment file, zero resolved pairs, zero counts and
zero records written to every output file. -/
theorem extract_skips_negative_start (bam : BamFile) (chr_name : String)
    (region_start region_end : Int) (pre : String)
    (fns : List ExtractFn) (pad : Int) (maxrp : Nat)
    (h : region_start - pad < 0) :
    (extract_read_pairs bam chr_name region_start region_end pre fns pad
        maxrp).errorLogged = true ∧
    (extract_read_pairs bam chr_name region_start region_end pre fns pad
        maxrp).fetched = false ∧
    (extract_read_pairs bam chr_name region_start region_end pre fns pad
        maxrp).alnPairs = [] ∧
    (∀ c ∈ (extract_read_pairs bam chr_name region_start region_end pre fns
        pad maxrp).counts, c = 0) ∧
    (∀ o ∈ (extract_read_pairs bam chr_name region_start region_end pre fns
        pad maxrp).outputs, o.2.1 = [] ∧ o.2.2 = []) := by
  refine ⟨?_, ?_, ?_, ?_, ?_⟩ <;>
    simp [extract_read_pairs, fetchedAlns, buildAlnDict, resolvePairs,
      emitChannel, h]

/-- C8: every pair reaching the filter-and-emit stage has both slots
filled, `all_pair` is true on every pair, and consequently the count
for any channel whose extraction function is `all_pair` equals the
number of resolved pairs. -/
theorem all_pair_channel_gets_every_pair (bam : BamFile) (chr_name : String)
    (region_start region_end : Int) (pre : String)
    (fns : List ExtractFn) (pad : Int) (maxrp : Nat) :
    (∀ p ∈ (extract_read_pairs bam chr_name region_start region_end pre fns
        pad maxrp).alnPairs, p.1.isSome ∧ p.2.isSome) ∧
    (∀ a m : Alignment, all_pair a m = true) ∧
    (∀ (i : Nat) (ef : ExtractFn), fns.get? i = some ef → ef.fn = all_pair →
      (extract_read_pairs bam chr_name region_start region_end pre fns pad
          maxrp).counts.get? i =
        some (extract_read_pairs bam chr_name region_start region_end pre fns
            pad maxrp).alnPairs.length) := by
  have hcomplete : ∀ p ∈ (extract_read_pairs bam chr_name region_start
      region_end pre fns pad maxrp).alnPairs, p.1.isSome ∧ p.2.isSome := by
    intro p hp
    simp only [extract_read_pairs] at hp
    by_cases hskip :
        (buildAlnDict (fetchedAlns bam chr_name region_start region_end
          pad)).length ≤ maxrp
    · rw [if_neg (by simp [hskip])] at hp
      exact resolvePairs_complete _ _ p hp
    · rw [if_pos (by simp [hskip])] at hp
      exact absurd hp (List.not_mem_nil p)
  refine ⟨hcomplete, fun a m => rfl, ?_⟩
  intro i ef hget hfn
  have hcount : (emitChannel ef.fn (extract_read_pairs bam chr_name
      region_start region_end pre fns pad maxrp).alnPairs).2.2 =
      (extract_read_pairs bam chr_name region_start region_end pre fns pad
        maxrp).alnPairs.length := by
    rw [emitChannel, emit_foldl_count ef.fn _ hcomplete
      (by intro a b; rw [hfn]; rfl)]
    simp
  have houts : (extract_read_pairs bam chr_name region_start region_end pre
      fns pad maxrp).counts =
      fns.map (fun ef => (emitChannel ef.fn (extract_read_pairs bam chr_name
        region_start region_end pre fns pad maxrp).alnPairs).2.2) := rfl
  rw [houts, List.get?_map, hget]
  simp [hcount]

/-- C9: one pair of output files is produced for every requested
extraction function, named from the file-name prefix and the function
name, regardless of how many pairs match. -/
theorem output_files_always_created (bam : BamFile) (chr_name : String)
    (region_start region_end : Int) (pre : String)
    (fns : List ExtractFn) (pad : Int) (maxrp : Nat) :
    (extract_read_pairs bam chr_name region_start region_end pre fns pad
        maxrp).outputs.length = fns.length ∧
    ∀ i : Nat,
      ((extract_read_pairs bam chr_name region_start region_end pre fns pad
          maxrp).outputs.get? i).map Prod.fst =
        (fns.get? i).map (fun ef =>
          (pre ++ "_" ++ ef.name ++ "_1.fq",
            pre ++ "_" ++ ef.name ++ "_2.fq")) := by
  constructor
  · simp [extract_read_pairs]
  · intro i
    show ((fns.map _).get? i).map Prod.fst = _
    rw [List.get?_map]
    cases fns.get? i <;> rfl

/-- The membership test in `insertAln` is membership among the
dictionary keys. -/
lemma insertAln_cond (d : List (String × Slots)) (aln : Alignment) :
    (d.any (fun e => e.1 = aln.qname)) = true ↔
      aln.qname ∈ d.map Prod.fst := by
  simp [List.any_eq_true, List.mem_map]

/-- Updating an existing entry in place leaves the key list unchanged. -/
lemma map_fst_update (d : List (String × Slots)) (q : String)
    (aln : Alignment) :
    (d.map (fun e => if e.1 = q then (e.1, updateSlot e.2 aln) else e)).map
        Prod.fst = d.map Prod.fst := by
  induction d with
  | nil => rfl
  | cons e rest ih =>
    by_cases h : e.1 = q <;> simp [h, ih]

/-- Keys after one insertion: unchanged for a known query name, the
query name appended for a new one. -/
lemma insertAln_keys (d : List (String × Slots)) (aln : Alignment) :
    (insertAln d aln).map Prod.fst =
      if aln.qname ∈ d.map Prod.fst then d.map Prod.fst
      else d.map Prod.fst ++ [aln.qname] := by
  by_cases h : aln.qname ∈ d.map Prod.fst
  · rw [if_pos h, insertAln, if_pos ((insertAln_cond d aln).2 h)]
    exact map_fst_update d aln.qname aln
  · rw [if_neg h, insertAln,
      if_neg (fun hc => h ((insertAln_cond d aln).1 hc))]
    simp [updateSlot]

/-- A key appears in the dictionary built by the grouping loop exactly
when it was already present or is the query name of some alignment. -/
lemma foldl_insert_keys_mem (alns : List Alignment) :
    ∀ (d : List (String × Slots)) (x : String),
      x ∈ (alns.foldl insertAln d).map Prod.fst ↔
        x ∈ d.map Prod.fst ∨ x ∈ alns.map Alignment.qname := by
  induction alns with
  | nil => simp
  | cons a rest ih =>
    intro d x
    rw [List.foldl_cons, ih]
    by_cases h : a.qname ∈ d.map Prod.fst
    · rw [insertAln_keys, if_pos h]
      simp only [List.map_cons, List.mem_cons]
      constructor
      · rintro (h1 | h2)
        · exact Or.inl h1
        · exact Or.inr (Or.inr h2)
      · rintro (h1 | h1 | h2)
        · exact Or.inl h1
        · subst h1
          exact Or.inl h
        · exact Or.inr h2
    · rw [insertAln_keys, if_neg h]
      simp only [List.map_cons, List.mem_cons, List.mem_append,
        List.mem_singleton]
      tauto

/-- The grouping loop never duplicates a key. -/
lemma foldl_insert_keys_nodup (alns : List Alignment) :
    ∀ d : List (String × Slots), (d.map Prod.fst).Nodup →
      ((alns.foldl insertAln d).map Prod.fst).Nodup := by
  induction alns with
  | nil => exact fun d h => h
  | cons a rest ih =>
    intro d h
    rw [List.foldl_cons]
    apply ih
    by_cases hm : a.qname ∈ d.map Prod.fst
    · rw [insertAln_keys, if_pos hm]
      exact h
    · rw [insertAln_keys, if_neg hm]
      rw [← List.concat_eq_append]
      exact List.Nodup.concat hm h

/-- The dictionary size equals the number of distinct query names among
the grouped alignments. -/
lemma buildAlnDict_length (alns : List Alignment) :
    (buildAlnDict alns).length =
      ((alns.map Alignment.qname).dedup).length := by
  have hkeys : ∀ x, x ∈ (buildAlnDict alns).map Prod.fst ↔
      x ∈ alns.map Alignment.qname := by
    intro x
    have hmem := foldl_insert_keys_mem alns [] x
    simpa [buildAlnDict] using hmem
  have hnd : ((buildAlnDict alns).map Prod.fst).Nodup :=
    foldl_insert_keys_nodup alns [] (by simp)
  have hperm : List.Perm ((buildAlnDict alns).map Prod.fst)
      ((alns.map Alignment.qname).dedup) := by
    rw [List.perm_ext_iff_of_nodup hnd (List.nodup_dedup _)]
    intro x
    rw [hkeys, List.mem_dedup]
  have hlen : ((buildAlnDict alns).map Prod.fst).length =
      (buildAlnDict alns).length := by simp
  rw [← hlen, hperm.length_eq]

/-- C6: when the number of distinct query names among the fetched
non-secondary alignments exceeds the read-pair ceiling, extraction is
skipped with a logged message, zero pairs are resolved, and zero pairs
are written to every output channel; at exactly the ceiling, extraction
proceeds through mate resolution. -/
theorem extract_skips_too_many_pairs (bam : BamFile) (chr_name : String)
    (region_start region_end : Int) (pre : String)
    (fns : List ExtractFn) (pad : Int) (maxrp : Nat) :
    (((fetchedAlns bam chr_name region_start region_end pad).map
        Alignment.qname).dedup.length > maxrp →
      (extract_read_pairs bam chr_name region_start region_end pre fns pad
          maxrp).skipLogged = true ∧
      (extract_read_pairs bam chr_name region_start region_end pre fns pad
          maxrp).alnPairs = [] ∧
      (∀ c ∈ (extract_read_pairs bam chr_name region_start region_end pre
          fns pad maxrp).counts, c = 0) ∧
      (∀ o ∈ (extract_read_pairs bam chr_name region_start region_end pre
          fns pad maxrp).outputs, o.2.1 = [] ∧ o.2.2 = [])) ∧
    (((fetchedAlns bam chr_name region_start region_end pad).map
        Alignment.qname).dedup.length = maxrp →
      (extract_read_pairs bam chr_name region_start region_end pre fns pad
          maxrp).skipLogged = false ∧
      (extract_read_pairs bam chr_name region_start region_end pre fns pad
          maxrp).alnPairs = resolvePairs bam.mateOf
          (buildAlnDict (fetchedAlns bam chr_name region_start region_end
            pad))) := by
  have hlen := buildAlnDict_length
    (fetchedAlns bam chr_name region_start region_end pad)
  constructor
  · intro h
    have hskip : ¬ ((buildAlnDict (fetchedAlns bam chr_name region_start
        region_end pad)).length ≤ maxrp) := by
      rw [hlen]
      omega
    refine ⟨?_, ?_, ?_, ?_⟩ <;>
      simp [extract_read_pairs, hskip, emitChannel]
  · intro h
    have hskip : (buildAlnDict (fetchedAlns bam chr_name region_start
        region_end pad)).length ≤ maxrp := by
      rw [hlen, h]
    constructor <;> simp [extract_read_pairs, hskip]

/-- Witness for C2 at the region 2-7 with padding 5. -/
theorem extract_skips_negative_start_witness :
    ((2 : Int) - 5 < 0) ∧
    ((extract_read_pairs bamAB "1" 2 7 "out" [efAll] 5 100).errorLogged =
        true ∧
      (extract_read_pairs bamAB "1" 2 7 "out" [efAll] 5 100).fetched =
        false ∧
      (extract_read_pairs bamAB "1" 2 7 "out" [efAll] 5 100).alnPairs =
        [] ∧
      (∀ c ∈ (extract_read_pairs bamAB "1" 2 7 "out" [efAll] 5 100).counts,
        c = 0) ∧
      (∀ o ∈ (extract_read_pairs bamAB "1" 2 7 "out" [efAll] 5 100).outputs,
        o.2.1 = [] ∧ o.2.2 = [])) :=
  ⟨by decide,
    extract_skips_negative_start bamAB "1" 2 7 "out" [efAll] 5 100
      (by decide)⟩

/-- Witness for C6 with two distinct query names against a ceiling of
one read pair. -/
theorem extract_skips_too_many_pairs_witness :
    (((fetchedAlns bamAB "1" 10 20 0).map Alignment.qname).dedup.length >
        1) ∧
    ((extract_read_pairs bamAB "1" 10 20 "out" [efAll] 0 1).skipLogged =
        true ∧
      (extract_read_pairs bamAB "1" 10 20 "out" [efAll] 0 1).alnPairs =
        [] ∧
      (∀ c ∈ (extract_read_pairs bamAB "1" 10 20 "out" [efAll] 0 1).counts,
        c = 0) ∧
      (∀ o ∈ (extract_read_pairs bamAB "1" 10 20 "out" [efAll] 0 1).outputs,
        o.2.1 = [] ∧ o.2.2 = [])) :=
  ⟨by decide,
    (extract_skips_too_many_pairs bamAB "1" 10 20 "out" [efAll] 0 1).1
      (by decide)⟩

/-- Witness for C8: with one all-pair channel, the count equals the
number of resolved pairs. -/
theorem all_pair_channel_gets_every_pair_witness :
    (extract_read_pairs bamAB "1" 10 20 "out" [efAll] 0 5).counts.get? 0 =
      some (extract_read_pairs bamAB "1" 10 20 "out" [efAll] 0
        5).alnPairs.length :=
  (all_pair_channel_gets_every_pair bamAB "1" 10 20 "out" [efAll] 0 5).2.2
    0 efAll rfl rfl

end ExtractPairs
